import Mathlib

/-!
Verification of the weather-update request handler of `ambient_weather_mqtt`
(`src/main.rs`).  Machine floats (`f32`/`f64`) are modelled as exact
rationals `ℚ`; the two transcendental operations the code uses,
`f64::sqrt` and `f32::powf`, are abstract parameters of the embedding,
since no claim below depends on their values.  String-to-number parsing is
modelled on plain decimal numerals (the forms a weather station sends);
float formatting rounds half-to-even at the requested precision, as Rust's
fixed-precision `format!` does on the underlying value.
-/

namespace AmbientWeather

/-! ## Decimal digits and characters -/

/-- Little-endian base-10 digits, with explicit fuel so that every call is
structural recursion. -/
def digitsLE : ℕ → ℕ → List ℕ
  | 0, _ => []
  | fuel + 1, n => if n = 0 then [] else n % 10 :: digitsLE fuel (n / 10)

/-- Little-endian base-10 digits of `n` (empty for `0`). -/
def natDigits (n : ℕ) : List ℕ := digitsLE n n

/-- Value of a little-endian digit list. -/
def ofDigitsLE : List ℕ → ℕ
  | [] => 0
  | d :: ds => d + 10 * ofDigitsLE ds

/-- Value of a big-endian digit list, as a left fold accumulates it. -/
def ofDigitsBE (ds : List ℕ) : ℕ := ds.foldl (fun a d => 10 * a + d) 0

/-- The ASCII character of the digit `d`. -/
def digitChar (d : ℕ) : Char := Char.ofNat (48 + d)

/-- The numeric value of an ASCII digit character. -/
def charDigitVal (c : Char) : Option ℕ :=
  if 48 ≤ c.toNat ∧ c.toNat ≤ 57 then some (c.toNat - 48) else none

theorem digitsLE_lt (fuel : ℕ) : ∀ n, ∀ d ∈ digitsLE fuel n, d < 10 := by
  induction fuel with
  | zero => intro n d hd; simp [digitsLE] at hd
  | succ fuel ih =>
    intro n d hd
    rw [digitsLE] at hd
    by_cases hn : n = 0
    · simp [hn] at hd
    · rw [if_neg hn] at hd
      rcases List.mem_cons.mp hd with h | h
      · subst h; exact Nat.mod_lt n (by omega)
      · exact ih (n / 10) d h

theorem natDigits_lt (n : ℕ) : ∀ d ∈ natDigits n, d < 10 := digitsLE_lt n n

theorem ofDigitsLE_digitsLE (fuel : ℕ) : ∀ n, n ≤ fuel → ofDigitsLE (digitsLE fuel n) = n := by
  induction fuel with
  | zero => intro n hn; interval_cases n; simp [digitsLE, ofDigitsLE]
  | succ fuel ih =>
    intro n hn
    rw [digitsLE]
    by_cases hz : n = 0
    · simp [hz, ofDigitsLE]
    · rw [if_neg hz, ofDigitsLE, ih (n / 10) (by omega), Nat.mod_add_div]

theorem ofDigitsLE_natDigits (n : ℕ) : ofDigitsLE (natDigits n) = n :=
  ofDigitsLE_digitsLE n n le_rfl

theorem ofDigitsBE_reverse (l : List ℕ) : ofDigitsBE l.reverse = ofDigitsLE l := by
  induction l with
  | nil => rfl
  | cons d t ih =>
    rw [ofDigitsLE, ← ih, ofDigitsBE, ofDigitsBE, List.reverse_cons, List.foldl_append]
    simp [Nat.add_comm, Nat.mul_comm]

theorem charDigitVal_digitChar {d : ℕ} (h : d < 10) : charDigitVal (digitChar d) = some d := by
  interval_cases d <;> decide

theorem digitChar_ne_dot {d : ℕ} (h : d < 10) : digitChar d ≠ '.' := by
  interval_cases d <;> decide

theorem digitChar_ne_minus {d : ℕ} (h : d < 10) : digitChar d ≠ '-' := by
  interval_cases d <;> decide

theorem digitChar_ne_plus {d : ℕ} (h : d < 10) : digitChar d ≠ '+' := by
  interval_cases d <;> decide

theorem digitChar_ne_dot_bne {d : ℕ} (h : d < 10) : (digitChar d != '.') = true := by
  interval_cases d <;> decide

theorem mapM_charDigitVal_map_digitChar :
    ∀ ds : List ℕ, (∀ d ∈ ds, d < 10) →
      List.mapM charDigitVal (ds.map digitChar) = some ds := by
  intro ds
  induction ds with
  | nil => intro _; rfl
  | cons d t ih =>
    intro h
    rw [List.map_cons, List.mapM_cons, charDigitVal_digitChar (h d (by simp)),
      ih (fun x hx => h x (by simp [hx]))]
    rfl

/-! ## Number parsing (models of Rust `str::parse`) -/

/-- Strip an optional leading sign: whether the number is negated, and the
remaining characters. -/
def parseSign : List Char → Bool × List Char
  | [] => (false, [])
  | c :: cs => if c = '-' then (true, cs) else if c = '+' then (false, cs) else (false, c :: cs)

/-- Model of Rust `str::parse::<i32>`: an optional sign followed by one or
more ASCII digits, with the value required to fit in the `i32` range. -/
def parseI32 (s : String) : Option ℤ :=
  let neg := (parseSign s.data).1
  let l := (parseSign s.data).2
  match l.mapM charDigitVal with
  | some ds =>
    if l = [] then none
    else
      let v : ℤ := if neg then -(ofDigitsBE ds : ℤ) else (ofDigitsBE ds : ℤ)
      if -(2 ^ 31) ≤ v ∧ v < 2 ^ 31 then some v else none
  | none => none

/-- Model of Rust `str::parse::<f32>` / `::<f64>` on plain decimal numerals
(an optional sign, digits, an optional point and fraction digits); the value
is kept as an exact rational.  Scientific, infinite and NaN spellings are
not modelled. -/
def parseDecimal (s : String) : Option ℚ :=
  let neg := (parseSign s.data).1
  let l := (parseSign s.data).2
  let ip := (l.span (fun c => c != '.')).1
  let rest := (l.span (fun c => c != '.')).2
  let fp := rest.drop 1
  if fp.contains '.' then none
  else
    match ip.mapM charDigitVal, fp.mapM charDigitVal with
    | some ids, some fds =>
      if ip = [] ∧ fp = [] then none
      else
        let mag : ℚ := (ofDigitsBE ids : ℚ) + (ofDigitsBE fds : ℚ) / 10 ^ fp.length
        some (if neg then -mag else mag)
    | _, _ => none

/-! ## Number formatting (models of Rust `to_string` / `format!`) -/

/-- Model of Rust `i32::to_string`: decimal digits behind an optional
minus sign. -/
def intToStr (n : ℤ) : String :=
  (if n < 0 then "-" else "") ++
    String.mk (if n.natAbs = 0 then ['0'] else ((natDigits n.natAbs).reverse).map digitChar)

/-- Round a rational to the nearest integer, ties to even. -/
def roundHalfEven (q : ℚ) : ℤ :=
  let f := ⌊q⌋
  let r := q - f
  if r < 1 / 2 then f
  else if 1 / 2 < r then f + 1
  else if f % 2 = 0 then f else f + 1

/-- Little-endian digits of `n`, zero-padded at the significant end to
length at least `p + 1`. -/
def paddedDigits (n p : ℕ) : List ℕ :=
  natDigits n ++ List.replicate (p + 1 - (natDigits n).length) 0

/-- Character rendering of a rounded magnitude `n` (scaled by `10 ^ p`) with
`p` digits after the decimal point, behind an optional minus sign. -/
def fmtChars (neg : Bool) (n p : ℕ) : List Char :=
  (if neg then ['-'] else []) ++ ((paddedDigits n p).drop p).reverse.map digitChar ++
    (if p = 0 then [] else '.' :: ((paddedDigits n p).take p).reverse.map digitChar)

/-- Model of Rust fixed-precision float formatting `format!` with precision
`p`: round half-to-even at `p` decimal places and print exactly `p` digits
after the point. -/
def fmtDec (q : ℚ) (p : ℕ) : String :=
  String.mk (fmtChars (decide (q < 0)) (roundHalfEven (|q| * 10 ^ p)).toNat p)

/-- Characters strictly after the first `'.'`, if any. -/
def afterDot : List Char → Option (List Char)
  | [] => none
  | c :: cs => if c = '.' then some cs else afterDot cs

/-- Number of characters after the first decimal point of a payload,
`none` when the payload has no decimal point. -/
def fracCount (s : String) : Option ℕ := (afterDot s.data).map List.length

theorem afterDot_of_not_mem {l : List Char} (h : '.' ∉ l) : afterDot l = none := by
  induction l with
  | nil => rfl
  | cons c cs ih =>
    rw [afterDot, if_neg (by intro hc; exact h (hc ▸ List.mem_cons_self c cs))]
    exact ih (fun hm => h (List.mem_cons_of_mem c hm))

theorem afterDot_append_dot {xs ys : List Char} (h : '.' ∉ xs) :
    afterDot (xs ++ '.' :: ys) = some ys := by
  induction xs with
  | nil => simp [afterDot]
  | cons c cs ih =>
    rw [List.cons_append, afterDot,
      if_neg (by intro hc; exact h (hc ▸ List.mem_cons_self c cs))]
    exact ih (fun hm => h (List.mem_cons_of_mem c hm))

theorem paddedDigits_lt (n p : ℕ) : ∀ d ∈ paddedDigits n p, d < 10 := by
  intro d hd
  rcases List.mem_append.mp hd with h | h
  · exact natDigits_lt n d h
  · rw [List.eq_of_mem_replicate h]; omega

theorem paddedDigits_length (n p : ℕ) : p + 1 ≤ (paddedDigits n p).length := by
  rw [paddedDigits, List.length_append, List.length_replicate]; omega

theorem dot_not_mem_digitChars {l : List ℕ} (h : ∀ d ∈ l, d < 10) :
    '.' ∉ l.map digitChar := by
  intro hm
  rcases List.mem_map.mp hm with ⟨d, hd, hc⟩
  exact digitChar_ne_dot (h d hd) hc

/-- Every decimal payload printed with precision `p ≥ 1` has exactly `p`
characters after its decimal point. -/
theorem fracCount_fmtDec (q : ℚ) (p : ℕ) (hp : 1 ≤ p) : fracCount (fmtDec q p) = some p := by
  rw [fmtDec, fracCount]
  set n := (roundHalfEven (|q| * 10 ^ p)).toNat with hn
  have hp0 : ¬p = 0 := by omega
  have hdata : (String.mk (fmtChars (decide (q < 0)) n p)).data = fmtChars (decide (q < 0)) n p := rfl
  rw [hdata, fmtChars, if_neg hp0]
  have hdot : '.' ∉ (if decide (q < 0) then ['-'] else []) ++
      ((paddedDigits n p).drop p).reverse.map digitChar := by
    intro hm
    rcases List.mem_append.mp hm with h | h
    · by_cases hq : decide (q < 0) <;> simp [hq] at h
    · exact dot_not_mem_digitChars
        (fun d hd => paddedDigits_lt n p d (List.mem_of_mem_drop (List.mem_reverse.mp hd))) h
  rw [afterDot_append_dot hdot]
  have hlen := paddedDigits_length n p
  simp [List.length_take]
  omega

theorem parseSign_digitChars (l : List ℕ) (h : ∀ d ∈ l, d < 10) :
    parseSign (l.map digitChar) = (false, l.map digitChar) := by
  cases l with
  | nil => rfl
  | cons d t =>
    rw [List.map_cons, parseSign,
      if_neg (digitChar_ne_minus (h d (by simp))), if_neg (digitChar_ne_plus (h d (by simp)))]

theorem natDigits_ne_nil {m : ℕ} (hm : m ≠ 0) : natDigits m ≠ [] := by
  obtain ⟨k, rfl⟩ : ∃ k, m = k + 1 := ⟨m - 1, by omega⟩
  rw [natDigits, digitsLE, if_neg hm]
  simp

theorem intToStr_data (n : ℤ) : (intToStr n).data =
    (if n < 0 then ['-'] else []) ++
      (if n.natAbs = 0 then ['0'] else ((natDigits n.natAbs).reverse).map digitChar) := by
  rw [intToStr, String.data_append]
  by_cases h : n < 0 <;> simp [h]

/-- Integer payloads contain no decimal point. -/
theorem fracCount_intToStr (n : ℤ) : fracCount (intToStr n) = none := by
  have hdot : '.' ∉ (if n < 0 then ['-'] else []) ++
      (if n.natAbs = 0 then ['0'] else ((natDigits n.natAbs).reverse).map digitChar) := by
    intro hm
    rcases List.mem_append.mp hm with h | h
    · by_cases hq : n < 0 <;> simp [hq] at h
    · by_cases hz : n.natAbs = 0
      · simp [hz] at h
      · rw [if_neg hz] at h
        exact dot_not_mem_digitChars
          (fun d hd => natDigits_lt n.natAbs d (List.mem_reverse.mp hd)) h
  rw [fracCount, intToStr_data, afterDot_of_not_mem hdot]
  rfl

/-- Rendering an in-range integer and parsing it back is the identity. -/
theorem parseI32_intToStr {n : ℤ} (h1 : -(2 ^ 31) ≤ n) (h2 : n < 2 ^ 31) :
    parseI32 (intToStr n) = some n := by
  rcases lt_trichotomy n 0 with hn | hn | hn
  · have hm : n.natAbs ≠ 0 := by omega
    have hdata : (intToStr n).data = '-' :: ((natDigits n.natAbs).reverse).map digitChar := by
      rw [intToStr_data, if_pos hn, if_neg hm]; rfl
    have hlt : ∀ d ∈ (natDigits n.natAbs).reverse, d < 10 :=
      fun d hd => natDigits_lt n.natAbs d (List.mem_reverse.mp hd)
    have hne : ((natDigits n.natAbs).reverse).map digitChar ≠ [] := by
      simp [natDigits_ne_nil hm]
    have hps : parseSign ('-' :: ((natDigits n.natAbs).reverse).map digitChar) =
        (true, ((natDigits n.natAbs).reverse).map digitChar) := by
      simp [parseSign]
    simp only [parseI32, hdata, hps, mapM_charDigitVal_map_digitChar _ hlt,
      ofDigitsBE_reverse, ofDigitsLE_natDigits, if_neg hne, if_true]
    rw [show ((n.natAbs : ℤ)) = -n by omega]
    rw [if_pos ⟨by omega, by omega⟩, neg_neg]
  · subst hn; decide
  · have hm : n.natAbs ≠ 0 := by omega
    have hdata : (intToStr n).data = ((natDigits n.natAbs).reverse).map digitChar := by
      rw [intToStr_data, if_neg (by omega), if_neg hm]; rfl
    have hlt : ∀ d ∈ (natDigits n.natAbs).reverse, d < 10 :=
      fun d hd => natDigits_lt n.natAbs d (List.mem_reverse.mp hd)
    have hne : ((natDigits n.natAbs).reverse).map digitChar ≠ [] := by
      simp [natDigits_ne_nil hm]
    simp only [parseI32, hdata, parseSign_digitChars _ hlt,
      mapM_charDigitVal_map_digitChar _ hlt,
      ofDigitsBE_reverse, ofDigitsLE_natDigits, if_neg hne, Bool.false_eq_true, if_false]
    rw [show ((n.natAbs : ℤ)) = n by omega]
    rw [if_pos ⟨h1, h2⟩]

theorem contains_dot_digitChars {l : List ℕ} (h : ∀ d ∈ l, d < 10) :
    (l.map digitChar).contains '.' = false := by
  rw [Bool.eq_false_iff]
  intro hc
  have hm : '.' ∈ l.map digitChar := by simpa using hc
  exact dot_not_mem_digitChars h hm

theorem takeWhile_notdot_append (ys : List Char) :
    ∀ xs : List Char, (∀ c ∈ xs, (c != '.') = true) →
      (xs ++ '.' :: ys).takeWhile (fun c => c != '.') = xs := by
  intro xs
  induction xs with
  | nil => intro _; simp [List.takeWhile_cons]
  | cons c t ih =>
    intro h
    rw [List.cons_append, List.takeWhile_cons_of_pos (p := fun c => c != '.') (h c (by simp)),
      ih (fun x hx => h x (by simp [hx]))]

theorem dropWhile_notdot_append (ys : List Char) :
    ∀ xs : List Char, (∀ c ∈ xs, (c != '.') = true) →
      (xs ++ '.' :: ys).dropWhile (fun c => c != '.') = '.' :: ys := by
  intro xs
  induction xs with
  | nil => intro _; simp [List.dropWhile_cons]
  | cons c t ih =>
    intro h
    rw [List.cons_append, List.dropWhile_cons_of_pos (p := fun c => c != '.') (h c (by simp)),
      ih (fun x hx => h x (by simp [hx]))]

theorem bne_dot_digitChars {l : List ℕ} (h : ∀ d ∈ l, d < 10) :
    ∀ c ∈ l.map digitChar, (c != '.') = true := by
  intro c hc
  rcases List.mem_map.mp hc with ⟨d, hd, rfl⟩
  exact digitChar_ne_dot_bne (h d hd)

/-- Parsing a plain digit string yields the digits' value. -/
theorem parseDecimal_digitChars (ds : List ℕ) (h10 : ∀ d ∈ ds, d < 10) (hne : ds ≠ []) :
    parseDecimal (String.mk (ds.map digitChar)) = some ((ofDigitsBE ds : ℚ)) := by
  have hdata : (String.mk (ds.map digitChar)).data = ds.map digitChar := rfl
  have hspan : (ds.map digitChar).span (fun c => c != '.') = (ds.map digitChar, []) := by
    rw [List.span_eq_take_drop, List.takeWhile_eq_self_iff.mpr (bne_dot_digitChars h10),
      List.dropWhile_eq_nil_iff.mpr (fun c hc => bne_dot_digitChars h10 c hc)]
  simp only [parseDecimal, hdata, parseSign_digitChars ds h10, hspan,
    List.drop_nil, List.contains_nil, mapM_charDigitVal_map_digitChar _ h10,
    Bool.false_eq_true, if_false, List.mapM_nil]
  rw [if_neg (by simp [hne])]
  simp [ofDigitsBE]

/-- Parsing a digit string with a decimal point yields integer and
fraction places. -/
theorem parseDecimal_digitCharsFrac (ids fds : List ℕ)
    (hi : ∀ d ∈ ids, d < 10) (hf : ∀ d ∈ fds, d < 10) (hne : ids ≠ []) :
    parseDecimal (String.mk (ids.map digitChar ++ '.' :: fds.map digitChar)) =
      some ((ofDigitsBE ids : ℚ) + (ofDigitsBE fds : ℚ) / 10 ^ fds.length) := by
  have hdata : (String.mk (ids.map digitChar ++ '.' :: fds.map digitChar)).data =
      ids.map digitChar ++ '.' :: fds.map digitChar := rfl
  have hps : parseSign (ids.map digitChar ++ '.' :: fds.map digitChar) =
      (false, ids.map digitChar ++ '.' :: fds.map digitChar) := by
    cases ids with
    | nil => exact absurd rfl hne
    | cons d t =>
      rw [List.map_cons, List.cons_append, parseSign,
        if_neg (digitChar_ne_minus (hi d (by simp))),
        if_neg (digitChar_ne_plus (hi d (by simp)))]
  have hspan : (ids.map digitChar ++ '.' :: fds.map digitChar).span (fun c => c != '.') =
      (ids.map digitChar, '.' :: fds.map digitChar) := by
    rw [List.span_eq_take_drop,
      takeWhile_notdot_append _ _ (bne_dot_digitChars hi),
      dropWhile_notdot_append _ _ (bne_dot_digitChars hi)]
  simp only [parseDecimal, hdata, hps, hspan, List.drop_succ_cons, List.drop_zero,
    contains_dot_digitChars hf, Bool.false_eq_true, if_false,
    mapM_charDigitVal_map_digitChar _ hi, mapM_charDigitVal_map_digitChar _ hf]
  rw [if_neg (by simp [hne])]
  simp

/-! ## The program model (`src/main.rs`) -/

/-- Query parameters of one request: lookup from key to raw string value,
modelling the `HashMap<String, String>` that axum extracts. -/
def Params : Type := String → Option String

/-- One MQTT publish handed to the client: topic, payload, retained flag. -/
structure Sample where
  topic : String
  payload : String
  retained : Bool
deriving DecidableEq

/-- The state topic published for a sensor name. -/
def stateTopic (sensor : String) : String :=
  "homeassistant/sensor/ambientWeather/" ++ sensor ++ "/state"

/-- Embedding of `publish_f32`: look the key up, parse it as a float and
publish it formatted at the given precision; a missing or unparseable value
is only logged (no publish). -/
def publish_f32 (params : Params) (key topic : String) (precision : ℕ) : List Sample :=
  match params key with
  | some val =>
    match parseDecimal val with
    | some parsed => [⟨stateTopic topic, fmtDec parsed precision, false⟩]
    | none => []
  | none => []

/-- Embedding of `publish_i32`: look the key up, parse it as an `i32` and
publish its decimal string; a missing or unparseable value is only logged. -/
def publish_i32 (params : Params) (key topic : String) : List Sample :=
  match params key with
  | some val =>
    match parseI32 val with
    | some parsed => [⟨stateTopic topic, intToStr parsed, false⟩]
    | none => []
  | none => []

/-- Embedding of the two inline pressure blocks of `handle_weather_update`:
parse inches of mercury and publish hectopascals (`inhg * 33.86`) at one
decimal place. -/
def publishPressure (params : Params) (key topic : String) : List Sample :=
  match params key with
  | some val =>
    match parseDecimal val with
    | some inhg => [⟨stateTopic topic, fmtDec (inhg * 33.86) 1, false⟩]
    | none => []
  | none => []

/-- Look a key up and parse it as a decimal number, as the nested
`if let Some(Ok(v))` patterns of the derived-metric blocks do. -/
def getParse (params : Params) (key : String) : Option ℚ :=
  (params key).bind parseDecimal

/-- Look a key up and parse it as an `i32`. -/
def getParseInt (params : Params) (key : String) : Option ℤ :=
  (params key).bind parseI32

/-- Embedding of the heat-index computation of `handle_weather_update`
(src/main.rs lines 417-444); `sqrt` abstracts `f64::sqrt`. -/
def heatIndex (sqrt : ℚ → ℚ) (temp_f rh : ℚ) : ℚ :=
  if temp_f < 80.0 then temp_f
  else
    let steadman := 0.5 * (temp_f + 61.0 + (temp_f - 68.0) * 1.2 + rh * 0.094)
    let s_avg := (temp_f + steadman) / 2.0
    if s_avg < 80.0 then steadman
    else
      let rothfusz := -42.379 + 2.04901523 * temp_f + 10.14333127 * rh
        - 0.22475541 * temp_f * rh
        - 0.00683783 * temp_f * temp_f
        - 0.05481717 * rh * rh
        + 0.00122874 * temp_f * temp_f * rh
        + 0.00085282 * temp_f * rh * rh
        - 0.00000199 * temp_f * temp_f * rh * rh
      if rh < 13.0 ∧ temp_f > 80.0 ∧ temp_f < 112.0 then
        rothfusz - ((13.0 - rh) / 4.0) * sqrt ((17.0 - |temp_f - 95.0|) / 17.0)
      else if rh > 85.0 ∧ temp_f > 80.0 ∧ temp_f < 87.0 then
        rothfusz + ((rh - 85.0) / 10.0) * ((87.0 - temp_f) / 5.0)
      else rothfusz

/-- Embedding of the feels-like block of `handle_weather_update`: when both
`tempf` and `humidity` parse, publish the heat index at one decimal place. -/
def publishHeatIndex (sqrt : ℚ → ℚ) (params : Params) : List Sample :=
  match getParse params "tempf", getParse params "humidity" with
  | some temp_f, some rh =>
    [⟨stateTopic "feelsLike", fmtDec (heatIndex sqrt temp_f rh) 1, false⟩]
  | _, _ => []

/-- Embedding of the wind-chill block of `handle_weather_update`
(src/main.rs lines 455-468): the value the code computes and logs, `none`
when a guard fails; `powf` abstracts `f32::powf`.  The block publishes
nothing: the value is only compared against the station-reported one in a
debug log line. -/
def computedWindChill (powf : ℚ → ℚ → ℚ) (params : Params) : Option ℚ :=
  match getParse params "tempf", getParse params "windspeedmph", params "windchillf" with
  | some temp_f, some wind_mph, some _ =>
    if temp_f ≤ 50.0 ∧ wind_mph > 3.0 then
      some (35.74 + (0.6215 * temp_f) - (35.75 * powf wind_mph 0.16)
        + (0.4275 * temp_f * powf wind_mph 0.16))
    else none
  | _, _, _ => none

/-- Embedding of `handle_weather_update`: the response status (200, 400 or
500) paired with the publishes performed, in program order.  `lockOk`
models whether locking the MQTT-client mutex succeeds. -/
def handle_weather_update (sqrt : ℚ → ℚ) (lockOk : Bool) (params : Params) :
    ℕ × List Sample :=
  if params "ID" ≠ some "local" ∨ params "PASSWORD" ≠ some "key" then (400, [])
  else if lockOk then
    (200,
      publish_f32 params "tempf" "temperature" 1 ++
      publish_i32 params "humidity" "humidity" ++
      publish_f32 params "dewptf" "dewPoint" 1 ++
      publish_f32 params "windchillf" "windChill" 1 ++
      publish_i32 params "winddir" "windDir" ++
      publish_f32 params "windspeedmph" "windSpeed" 2 ++
      publish_f32 params "windgustmph" "windGust" 2 ++
      publish_f32 params "rainin" "rainHourly" 3 ++
      publish_f32 params "dailyrainin" "rainDaily" 3 ++
      publish_f32 params "weeklyrainin" "rainWeekly" 3 ++
      publish_f32 params "monthlyrainin" "rainMonthly" 3 ++
      publish_f32 params "totalrainin" "rainLifetime" 3 ++
      publish_f32 params "solarradiation" "solarRadiation" 1 ++
      publish_i32 params "UV" "UV" ++
      publish_f32 params "indoortempf" "kitchenTemperature" 1 ++
      publish_i32 params "indoorhumidity" "kitchenHumidity" ++
      publishPressure params "absbaromin" "pressure" ++
      publishPressure params "baromin" "relativePressure" ++
      publishHeatIndex sqrt params)
  else (500, [])

/-- Valid request credentials: the hardcoded comparison of
`handle_weather_update`. -/
def validCreds (params : Params) : Prop :=
  params "ID" = some "local" ∧ params "PASSWORD" = some "key"

/-- Kind of a station field: integer (`i32`) or float with a precision. -/
inductive ValueKind
  | integer
  | decimal (precision : ℕ)
deriving DecidableEq

/-- Static descriptor of one station field. -/
structure SensorFieldSpec where
  sourceKey : String
  targetTopicSuffix : String
  valueKind : ValueKind
deriving DecidableEq

/-- The field table: the sixteen `publish_f32`/`publish_i32` calls of
`handle_weather_update`, in program order. -/
def fieldTable : List SensorFieldSpec :=
  [⟨"tempf", "temperature", .decimal 1⟩,
   ⟨"humidity", "humidity", .integer⟩,
   ⟨"dewptf", "dewPoint", .decimal 1⟩,
   ⟨"windchillf", "windChill", .decimal 1⟩,
   ⟨"winddir", "windDir", .integer⟩,
   ⟨"windspeedmph", "windSpeed", .decimal 2⟩,
   ⟨"windgustmph", "windGust", .decimal 2⟩,
   ⟨"rainin", "rainHourly", .decimal 3⟩,
   ⟨"dailyrainin", "rainDaily", .decimal 3⟩,
   ⟨"weeklyrainin", "rainWeekly", .decimal 3⟩,
   ⟨"monthlyrainin", "rainMonthly", .decimal 3⟩,
   ⟨"totalrainin", "rainLifetime", .decimal 3⟩,
   ⟨"solarradiation", "solarRadiation", .decimal 1⟩,
   ⟨"UV", "UV", .integer⟩,
   ⟨"indoortempf", "kitchenTemperature", .decimal 1⟩,
   ⟨"indoorhumidity", "kitchenHumidity", .integer⟩]

/-- Run the publish routine a field descriptor stands for. -/
def runFieldSpec (params : Params) : SensorFieldSpec → List Sample
  | ⟨key, topic, .integer⟩ => publish_i32 params key topic
  | ⟨key, topic, .decimal p⟩ => publish_f32 params key topic p

/-! ## The specification's apparent-temperature algorithm -/

/-- The apparent-temperature algorithm exactly as the specification words
it (steps 1-6 of its derived-metric section), to be compared with the
code's `heatIndex`. -/
def specApparentTemperature (sqrt : ℚ → ℚ) (T RH : ℚ) : ℚ :=
  if T < 80.0 then T
  else
    let steadman := 0.5 * (T + 61 + (T - 68) * 1.2 + RH * 0.094)
    let avg := (T + steadman) / 2
    if avg < 80.0 then steadman
    else
      let rothfusz := -42.379 + 2.04901523 * T + 10.14333127 * RH
        - 0.22475541 * T * RH
        - 0.00683783 * T ^ 2
        - 0.05481717 * RH ^ 2
        + 0.00122874 * T ^ 2 * RH
        + 0.00085282 * T * RH ^ 2
        - 0.00000199 * T ^ 2 * RH ^ 2
      if RH < 13 ∧ 80 < T ∧ T < 112 then
        rothfusz - ((13 - RH) / 4) * sqrt ((17 - |T - 95|) / 17)
      else if RH > 85 ∧ 80 < T ∧ T < 87 then
        rothfusz + ((RH - 85) / 10) * ((87 - T) / 5)
      else rothfusz

/-- The code's heat index agrees with the specification's algorithm at
every temperature and humidity, for any square root. -/
theorem heatIndex_eq_spec (sqrt : ℚ → ℚ) (T RH : ℚ) :
    heatIndex sqrt T RH = specApparentTemperature sqrt T RH := by
  have e2 : (2.0 : ℚ) = 2 := by norm_num
  have e4 : (4.0 : ℚ) = 4 := by norm_num
  have e5 : (5.0 : ℚ) = 5 := by norm_num
  have e10 : (10.0 : ℚ) = 10 := by norm_num
  have e13 : (13.0 : ℚ) = 13 := by norm_num
  have e17 : (17.0 : ℚ) = 17 := by norm_num
  have e61 : (61.0 : ℚ) = 61 := by norm_num
  have e68 : (68.0 : ℚ) = 68 := by norm_num
  have e80 : (80.0 : ℚ) = 80 := by norm_num
  have e85 : (85.0 : ℚ) = 85 := by norm_num
  have e87 : (87.0 : ℚ) = 87 := by norm_num
  have e95 : (95.0 : ℚ) = 95 := by norm_num
  have e112 : (112.0 : ℚ) = 112 := by norm_num
  simp only [heatIndex, specApparentTemperature, gt_iff_lt,
    e2, e4, e5, e10, e13, e17, e61, e68, e80, e85, e87, e95, e112]
  split_ifs <;> ring

/-! ## Structural lemmas about the handler -/

/-- All samples produced by the sixteen table-driven field publishes. -/
def fieldSamples (params : Params) : List Sample :=
  (fieldTable.map (runFieldSpec params)).flatten

theorem handle_samples_eq (sqrt : ℚ → ℚ) (params : Params) (hc : validCreds params) :
    (handle_weather_update sqrt true params).2 =
      fieldSamples params ++
      publishPressure params "absbaromin" "pressure" ++
      publishPressure params "baromin" "relativePressure" ++
      publishHeatIndex sqrt params := by
  rcases hc with ⟨h1, h2⟩
  rw [handle_weather_update, if_neg (by push_neg; exact ⟨h1, h2⟩), if_pos rfl]
  simp [fieldSamples, fieldTable, runFieldSpec, List.append_assoc]

theorem handle_status_of_valid (sqrt : ℚ → ℚ) (params : Params) (hc : validCreds params) :
    (handle_weather_update sqrt true params).1 = 200 := by
  rcases hc with ⟨h1, h2⟩
  rw [handle_weather_update, if_neg (by push_neg; exact ⟨h1, h2⟩), if_pos rfl]

theorem publish_f32_parse {params : Params} {key : String} {q : ℚ}
    (h : getParse params key = some q) (topic : String) (prec : ℕ) :
    publish_f32 params key topic prec = [⟨stateTopic topic, fmtDec q prec, false⟩] := by
  rcases Option.bind_eq_some.mp h with ⟨val, hv, hp⟩
  simp [publish_f32, hv, hp]

theorem publish_i32_parse {params : Params} {key : String} {n : ℤ}
    (h : getParseInt params key = some n) (topic : String) :
    publish_i32 params key topic = [⟨stateTopic topic, intToStr n, false⟩] := by
  rcases Option.bind_eq_some.mp h with ⟨val, hv, hp⟩
  simp [publish_i32, hv, hp]

theorem publishPressure_parse {params : Params} {key : String} {q : ℚ}
    (h : getParse params key = some q) (topic : String) :
    publishPressure params key topic = [⟨stateTopic topic, fmtDec (q * 33.86) 1, false⟩] := by
  rcases Option.bind_eq_some.mp h with ⟨val, hv, hp⟩
  simp [publishPressure, hv, hp]

theorem publishHeatIndex_parse {params : Params} {T RH : ℚ} (sqrt : ℚ → ℚ)
    (ht : getParse params "tempf" = some T) (hh : getParse params "humidity" = some RH) :
    publishHeatIndex sqrt params =
      [⟨stateTopic "feelsLike", fmtDec (heatIndex sqrt T RH) 1, false⟩] := by
  rw [publishHeatIndex, ht, hh]

theorem mem_publish_f32 {params : Params} {key topic : String} {prec : ℕ} {s : Sample}
    (h : s ∈ publish_f32 params key topic prec) :
    ∃ q, getParse params key = some q ∧ s = ⟨stateTopic topic, fmtDec q prec, false⟩ := by
  rcases hpk : params key with _ | val
  · simp [publish_f32, hpk] at h
  · rcases hpv : parseDecimal val with _ | q
    · simp [publish_f32, hpk, hpv] at h
    · simp only [publish_f32, hpk, hpv, List.mem_singleton] at h
      exact ⟨q, by simp [getParse, hpk, hpv], h⟩

theorem mem_publish_i32 {params : Params} {key topic : String} {s : Sample}
    (h : s ∈ publish_i32 params key topic) :
    ∃ n, getParseInt params key = some n ∧ s = ⟨stateTopic topic, intToStr n, false⟩ := by
  rcases hpk : params key with _ | val
  · simp [publish_i32, hpk] at h
  · rcases hpv : parseI32 val with _ | n
    · simp [publish_i32, hpk, hpv] at h
    · simp only [publish_i32, hpk, hpv, List.mem_singleton] at h
      exact ⟨n, by simp [getParseInt, hpk, hpv], h⟩

theorem mem_publishPressure {params : Params} {key topic : String} {s : Sample}
    (h : s ∈ publishPressure params key topic) :
    ∃ q, getParse params key = some q ∧ s = ⟨stateTopic topic, fmtDec (q * 33.86) 1, false⟩ := by
  rcases hpk : params key with _ | val
  · simp [publishPressure, hpk] at h
  · rcases hpv : parseDecimal val with _ | q
    · simp [publishPressure, hpk, hpv] at h
    · simp only [publishPressure, hpk, hpv, List.mem_singleton] at h
      exact ⟨q, by simp [getParse, hpk, hpv], h⟩

theorem mem_publishHeatIndex {params : Params} {sqrt : ℚ → ℚ} {s : Sample}
    (h : s ∈ publishHeatIndex sqrt params) :
    ∃ T RH, getParse params "tempf" = some T ∧ getParse params "humidity" = some RH ∧
      s = ⟨stateTopic "feelsLike", fmtDec (heatIndex sqrt T RH) 1, false⟩ := by
  rcases ht : getParse params "tempf" with _ | T
  · simp [publishHeatIndex, ht] at h
  · rcases hh : getParse params "humidity" with _ | RH
    · simp [publishHeatIndex, ht, hh] at h
    · simp only [publishHeatIndex, ht, hh, List.mem_singleton] at h
      exact ⟨T, RH, rfl, rfl, h⟩

theorem runFieldSpec_decimal {s : SensorFieldSpec} {p : ℕ} (hs : s.valueKind = .decimal p)
    (params : Params) {q : ℚ} (hq : getParse params s.sourceKey = some q) :
    runFieldSpec params s = [⟨stateTopic s.targetTopicSuffix, fmtDec q p, false⟩] := by
  obtain ⟨key, topic, kind⟩ := s
  cases kind with
  | integer => exact absurd hs (by simp)
  | decimal p' =>
    injection hs with h
    subst h
    exact publish_f32_parse hq topic p'

theorem runFieldSpec_integer {s : SensorFieldSpec} (hs : s.valueKind = .integer)
    (params : Params) {n : ℤ} (hn : getParseInt params s.sourceKey = some n) :
    runFieldSpec params s = [⟨stateTopic s.targetTopicSuffix, intToStr n, false⟩] := by
  obtain ⟨key, topic, kind⟩ := s
  cases kind with
  | integer => exact publish_i32_parse hn topic
  | decimal p' => exact absurd hs (by simp)

theorem runFieldSpec_subset {s : SensorFieldSpec} (hs : s ∈ fieldTable)
    (sqrt : ℚ → ℚ) (params : Params) (hc : validCreds params) :
    runFieldSpec params s ⊆ (handle_weather_update sqrt true params).2 := by
  intro x hx
  rw [handle_samples_eq sqrt params hc]
  refine List.mem_append_left _ (List.mem_append_left _ (List.mem_append_left _ ?_))
  exact List.mem_flatten.mpr ⟨runFieldSpec params s, List.mem_map_of_mem _ hs, hx⟩

/-! ## Evaluation helpers for concrete inputs -/

theorem decide_lt_zero_eq_false {q : ℚ} (h : 0 ≤ q) : decide (q < 0) = false :=
  decide_eq_false (not_lt.mpr h)

theorem fmtDec_eq {q : ℚ} {p n : ℕ} {neg : Bool} (h1 : decide (q < 0) = neg)
    (h2 : roundHalfEven (|q| * 10 ^ p) = (n : ℤ)) :
    fmtDec q p = String.mk (fmtChars neg n p) := by
  rw [fmtDec, h1, h2, Int.toNat_natCast]

theorem roundHalfEven_of_lt {q : ℚ} {f : ℤ} (h1 : ⌊q⌋ = f) (h2 : q - f < 1 / 2) :
    roundHalfEven q = f := by
  simp only [roundHalfEven]
  rw [h1, if_pos h2]

theorem roundHalfEven_of_gt {q : ℚ} {f : ℤ} (h1 : ⌊q⌋ = f) (h2 : 1 / 2 < q - f) :
    roundHalfEven q = f + 1 := by
  simp only [roundHalfEven]
  rw [h1, if_neg (by linarith), if_pos h2]

theorem parse_70 : parseDecimal "70" = some 70 := by
  have h : parseDecimal "70" = some ((ofDigitsBE [7, 0] : ℚ)) :=
    parseDecimal_digitChars [7, 0] (by decide) (by decide)
  rw [h, show ofDigitsBE [7, 0] = 70 from rfl]
  norm_num

theorem parse_50 : parseDecimal "50" = some 50 := by
  have h : parseDecimal "50" = some ((ofDigitsBE [5, 0] : ℚ)) :=
    parseDecimal_digitChars [5, 0] (by decide) (by decide)
  rw [h, show ofDigitsBE [5, 0] = 50 from rfl]
  norm_num

theorem parse_40 : parseDecimal "40" = some 40 := by
  have h : parseDecimal "40" = some ((ofDigitsBE [4, 0] : ℚ)) :=
    parseDecimal_digitChars [4, 0] (by decide) (by decide)
  rw [h, show ofDigitsBE [4, 0] = 40 from rfl]
  norm_num

theorem parse_10 : parseDecimal "10" = some 10 := by
  have h : parseDecimal "10" = some ((ofDigitsBE [1, 0] : ℚ)) :=
    parseDecimal_digitChars [1, 0] (by decide) (by decide)
  rw [h, show ofDigitsBE [1, 0] = 10 from rfl]
  norm_num

theorem parse_35 : parseDecimal "35" = some 35 := by
  have h : parseDecimal "35" = some ((ofDigitsBE [3, 5] : ℚ)) :=
    parseDecimal_digitChars [3, 5] (by decide) (by decide)
  rw [h, show ofDigitsBE [3, 5] = 35 from rfl]
  norm_num

theorem parse_2992 : parseDecimal "29.92" = some 29.92 := by
  have h : parseDecimal "29.92" =
      some ((ofDigitsBE [2, 9] : ℚ) + (ofDigitsBE [9, 2] : ℚ) / 10 ^ ([9, 2] : List ℕ).length) :=
    parseDecimal_digitCharsFrac [2, 9] [9, 2] (by decide) (by decide) (by decide)
  rw [h, show ofDigitsBE [2, 9] = 29 from rfl, show ofDigitsBE [9, 2] = 92 from rfl,
    show ([9, 2] : List ℕ).length = 2 from rfl]
  norm_num

theorem fmtDec_70 : fmtDec (70 : ℚ) 1 = "70.0" := by
  have h2 : roundHalfEven (|(70 : ℚ)| * 10 ^ 1) = ((700 : ℕ) : ℤ) := by
    rw [abs_of_nonneg (by norm_num)]
    rw [roundHalfEven_of_lt (f := ((700 : ℕ) : ℤ)) (by rw [Int.floor_eq_iff]; push_cast; norm_num)
      (by push_cast; norm_num)]
  rw [fmtDec_eq (decide_lt_zero_eq_false (by norm_num)) h2]
  decide

/-! ## C1: the published apparent temperature matches the specification -/

/-- C1: for every request with valid credentials whose `tempf` and
`humidity` both parse, the handler publishes to the feels-like state topic
exactly the specification's branching apparent-temperature value, formatted
to one decimal place. -/
theorem heat_index_published_matches_spec (sqrt : ℚ → ℚ) (params : Params) (T RH : ℚ)
    (hc : validCreds params) (ht : getParse params "tempf" = some T)
    (hh : getParse params "humidity" = some RH) :
    (⟨stateTopic "feelsLike", fmtDec (specApparentTemperature sqrt T RH) 1, false⟩ : Sample)
      ∈ (handle_weather_update sqrt true params).2 := by
  rw [handle_samples_eq sqrt params hc]
  apply List.mem_append_right
  rw [publishHeatIndex_parse sqrt ht hh, heatIndex_eq_spec]
  exact List.mem_singleton.mpr rfl

/-- Request with valid credentials, `tempf=70`, `humidity=50`. -/
def pC1 : Params := fun k =>
  if k = "ID" then some "local" else if k = "PASSWORD" then some "key"
  else if k = "tempf" then some "70" else if k = "humidity" then some "50" else none

theorem heat_index_published_matches_spec_witness :
    (⟨stateTopic "feelsLike", "70.0", false⟩ : Sample) ∈ (handle_weather_update id true pC1).2 := by
  have ht : getParse pC1 "tempf" = some 70 := by
    rw [getParse, show pC1 "tempf" = some "70" from rfl, Option.some_bind, parse_70]
  have hh : getParse pC1 "humidity" = some 50 := by
    rw [getParse, show pC1 "humidity" = some "50" from rfl, Option.some_bind, parse_50]
  have h := heat_index_published_matches_spec id pC1 70 50 ⟨rfl, rfl⟩ ht hh
  have he : fmtDec (specApparentTemperature id (70 : ℚ) 50) 1 = "70.0" := by
    rw [show specApparentTemperature id (70 : ℚ) 50 = 70 by
      rw [specApparentTemperature, if_pos (by norm_num)], fmtDec_70]
  rwa [he] at h

/-! ## C2: bad credentials are rejected with no publish -/

/-- C2: whenever the `ID` parameter is missing or differs from `"local"`,
or `PASSWORD` is missing or differs from `"key"`, the handler answers 400
and publishes nothing. -/
theorem invalid_credentials_reject (sqrt : ℚ → ℚ) (lockOk : Bool) (params : Params)
    (h : params "ID" ≠ some "local" ∨ params "PASSWORD" ≠ some "key") :
    handle_weather_update sqrt lockOk params = (400, []) := by
  rw [handle_weather_update, if_pos h]

/-- Request with a wrong station ID but otherwise plausible data. -/
def pC2 : Params := fun k =>
  if k = "ID" then some "wrong" else if k = "PASSWORD" then some "key"
  else if k = "tempf" then some "70" else none

theorem invalid_credentials_reject_witness :
    handle_weather_update id true pC2 = (400, []) :=
  invalid_credentials_reject id true pC2 (Or.inl (by decide))

/-! ## C3: field failures are isolated and never fail the request -/

/-- C3: with valid credentials and the lock acquired the handler answers
200 however many fields are missing or unparseable; each field of the table
that parses is still published, and a field's publish depends only on that
field's own parameter, so no failing field can suppress another. -/
theorem valid_request_succeeds_fields_independent (sqrt : ℚ → ℚ) (params : Params)
    (hc : validCreds params) :
    (handle_weather_update sqrt true params).1 = 200 ∧
    (∀ s ∈ fieldTable, runFieldSpec params s ⊆ (handle_weather_update sqrt true params).2) ∧
    (∀ (params' : Params) (s : SensorFieldSpec),
      params' s.sourceKey = params s.sourceKey →
      runFieldSpec params' s = runFieldSpec params s) := by
  refine ⟨handle_status_of_valid sqrt params hc,
    fun s hs => runFieldSpec_subset hs sqrt params hc, ?_⟩
  intro params' s h
  obtain ⟨key, topic, kind⟩ := s
  change params' key = params key at h
  cases kind with
  | integer => simp only [runFieldSpec, publish_i32, h]
  | decimal p => simp only [runFieldSpec, publish_f32, h]

/-- Request with valid credentials, unparseable `tempf=abc` and a valid
`humidity=50`. -/
def pC3 : Params := fun k =>
  if k = "ID" then some "local" else if k = "PASSWORD" then some "key"
  else if k = "tempf" then some "abc" else if k = "humidity" then some "50" else none

theorem valid_request_succeeds_fields_independent_witness :
    (handle_weather_update id true pC3).1 = 200 ∧
    (⟨stateTopic "humidity", intToStr 50, false⟩ : Sample)
      ∈ (handle_weather_update id true pC3).2 := by
  have h := valid_request_succeeds_fields_independent id pC3 ⟨rfl, rfl⟩
  refine ⟨h.1, h.2.1 ⟨"humidity", "humidity", .integer⟩ (by decide) ?_⟩
  have h50 : getParseInt pC3 "humidity" = some 50 := by decide
  rw [runFieldSpec_integer rfl pC3 h50]
  exact List.mem_singleton.mpr rfl

/-! ## C4: wind chill is guarded and never published -/

/-- C4: the wind-chill formula is evaluated only when `tempf` parses to at
most 50, `windspeedmph` parses to more than 3 and `windchillf` is present
in the request; and no publish on the wind-chill state topic ever comes
from that computation: every sample there carries the station-reported
`windchillf` value. -/
theorem computed_wind_chill_guarded_never_published :
    (∀ (powf : ℚ → ℚ → ℚ) (params : Params), (computedWindChill powf params).isSome →
      ∃ T V, getParse params "tempf" = some T ∧ getParse params "windspeedmph" = some V ∧
        (params "windchillf").isSome ∧ T ≤ 50.0 ∧ V > 3.0) ∧
    (∀ (sqrt : ℚ → ℚ) (lockOk : Bool) (params : Params) (s : Sample),
      s ∈ (handle_weather_update sqrt lockOk params).2 → s.topic = stateTopic "windChill" →
      ∃ q, getParse params "windchillf" = some q ∧ s.payload = fmtDec q 1 ∧
        s.retained = false) := by
  constructor
  · intro powf params h
    rcases ht : getParse params "tempf" with _ | T
    · simp [computedWindChill, ht] at h
    rcases hv : getParse params "windspeedmph" with _ | V
    · simp [computedWindChill, ht, hv] at h
    rcases hw : params "windchillf" with _ | w
    · simp [computedWindChill, ht, hv, hw] at h
    simp only [computedWindChill, ht, hv, hw] at h
    split_ifs at h with hcond
    · exact ⟨T, V, rfl, rfl, rfl, hcond.1, hcond.2⟩
    · simp at h
  · intro sqrt lockOk params s hs htop
    by_cases hcred : params "ID" ≠ some "local" ∨ params "PASSWORD" ≠ some "key"
    · rw [handle_weather_update, if_pos hcred] at hs
      simp at hs
    · rw [handle_weather_update, if_neg hcred] at hs
      cases lockOk with
      | false => simp at hs
      | true =>
        rw [if_pos rfl] at hs
        simp only [List.mem_append] at hs
        rcases hs with (((((((((((((((((h | h) | h) | h) | h) | h) | h) | h) | h) | h) | h) | h) | h) | h) | h) | h) | h) | h) | h
        · obtain ⟨q, hq, rfl⟩ := mem_publish_f32 h
          exact absurd htop (show stateTopic "temperature" ≠ stateTopic "windChill" by decide)
        · obtain ⟨n, hn, rfl⟩ := mem_publish_i32 h
          exact absurd htop (show stateTopic "humidity" ≠ stateTopic "windChill" by decide)
        · obtain ⟨q, hq, rfl⟩ := mem_publish_f32 h
          exact absurd htop (show stateTopic "dewPoint" ≠ stateTopic "windChill" by decide)
        · obtain ⟨q, hq, rfl⟩ := mem_publish_f32 h
          exact ⟨q, hq, rfl, rfl⟩
        · obtain ⟨n, hn, rfl⟩ := mem_publish_i32 h
          exact absurd htop (show stateTopic "windDir" ≠ stateTopic "windChill" by decide)
        · obtain ⟨q, hq, rfl⟩ := mem_publish_f32 h
          exact absurd htop (show stateTopic "windSpeed" ≠ stateTopic "windChill" by decide)
        · obtain ⟨q, hq, rfl⟩ := mem_publish_f32 h
          exact absurd htop (show stateTopic "windGust" ≠ stateTopic "windChill" by decide)
        · obtain ⟨q, hq, rfl⟩ := mem_publish_f32 h
          exact absurd htop (show stateTopic "rainHourly" ≠ stateTopic "windChill" by decide)
        · obtain ⟨q, hq, rfl⟩ := mem_publish_f32 h
          exact absurd htop (show stateTopic "rainDaily" ≠ stateTopic "windChill" by decide)
        · obtain ⟨q, hq, rfl⟩ := mem_publish_f32 h
          exact absurd htop (show stateTopic "rainWeekly" ≠ stateTopic "windChill" by decide)
        · obtain ⟨q, hq, rfl⟩ := mem_publish_f32 h
          exact absurd htop (show stateTopic "rainMonthly" ≠ stateTopic "windChill" by decide)
        · obtain ⟨q, hq, rfl⟩ := mem_publish_f32 h
          exact absurd htop (show stateTopic "rainLifetime" ≠ stateTopic "windChill" by decide)
        · obtain ⟨q, hq, rfl⟩ := mem_publish_f32 h
          exact absurd htop (show stateTopic "solarRadiation" ≠ stateTopic "windChill" by decide)
        · obtain ⟨n, hn, rfl⟩ := mem_publish_i32 h
          exact absurd htop (show stateTopic "UV" ≠ stateTopic "windChill" by decide)
        · obtain ⟨q, hq, rfl⟩ := mem_publish_f32 h
          exact absurd htop (show stateTopic "kitchenTemperature" ≠ stateTopic "windChill" by decide)
        · obtain ⟨n, hn, rfl⟩ := mem_publish_i32 h
          exact absurd htop (show stateTopic "kitchenHumidity" ≠ stateTopic "windChill" by decide)
        · obtain ⟨q, hq, rfl⟩ := mem_publishPressure h
          exact absurd htop (show stateTopic "pressure" ≠ stateTopic "windChill" by decide)
        · obtain ⟨q, hq, rfl⟩ := mem_publishPressure h
          exact absurd htop (show stateTopic "relativePressure" ≠ stateTopic "windChill" by decide)
        · obtain ⟨T, RH, ht2, hh2, rfl⟩ := mem_publishHeatIndex h
          exact absurd htop (show stateTopic "feelsLike" ≠ stateTopic "windChill" by decide)

/-- Request with valid credentials, `tempf=40`, `windspeedmph=10` and a
station-reported `windchillf=35`. -/
def pC4 : Params := fun k =>
  if k = "ID" then some "local" else if k = "PASSWORD" then some "key"
  else if k = "tempf" then some "40" else if k = "windspeedmph" then some "10"
  else if k = "windchillf" then some "35" else none

theorem computed_wind_chill_guarded_never_published_witness :
    (∃ T V, getParse pC4 "tempf" = some T ∧ getParse pC4 "windspeedmph" = some V ∧
      (pC4 "windchillf").isSome ∧ T ≤ 50.0 ∧ V > 3.0) ∧
    (∃ q, getParse pC4 "windchillf" = some q ∧
      (⟨stateTopic "windChill", fmtDec (35 : ℚ) 1, false⟩ : Sample).payload = fmtDec q 1 ∧
      (⟨stateTopic "windChill", fmtDec (35 : ℚ) 1, false⟩ : Sample).retained = false) := by
  have ht : getParse pC4 "tempf" = some 40 := by
    rw [getParse, show pC4 "tempf" = some "40" from rfl, Option.some_bind, parse_40]
  have hv : getParse pC4 "windspeedmph" = some 10 := by
    rw [getParse, show pC4 "windspeedmph" = some "10" from rfl, Option.some_bind, parse_10]
  have hw : getParse pC4 "windchillf" = some 35 := by
    rw [getParse, show pC4 "windchillf" = some "35" from rfl, Option.some_bind, parse_35]
  constructor
  · apply computed_wind_chill_guarded_never_published.1 (fun _ _ => (0 : ℚ)) pC4
    simp only [computedWindChill, ht, hv, show pC4 "windchillf" = some "35" from rfl]
    rw [if_pos (by norm_num)]
    rfl
  · apply computed_wind_chill_guarded_never_published.2 id true pC4
    · rw [handle_samples_eq id pC4 ⟨rfl, rfl⟩]
      refine List.mem_append_left _ (List.mem_append_left _ (List.mem_append_left _ ?_))
      have hmem : (⟨"windchillf", "windChill", .decimal 1⟩ : SensorFieldSpec) ∈ fieldTable := by
        decide
      refine List.mem_flatten.mpr ⟨runFieldSpec pC4 ⟨"windchillf", "windChill", .decimal 1⟩,
        List.mem_map_of_mem _ hmem, ?_⟩
      rw [runFieldSpec_decimal rfl pC4 hw]
      exact List.mem_singleton.mpr rfl
    · rfl

/-! ## C5: required inputs of the derived metrics -/

/-- Request with valid credentials, `tempf=40`, `windspeedmph=10` and a
present but non-numeric `windchillf=abc`. -/
def pC5 : Params := fun k =>
  if k = "ID" then some "local" else if k = "PASSWORD" then some "key"
  else if k = "tempf" then some "40" else if k = "windspeedmph" then some "10"
  else if k = "windchillf" then some "abc" else none

/-- C5 counterexample: with `windchillf` present but unparseable as a
number, and temperature and wind speed valid, the code still evaluates the
wind-chill formula, against the claim that a derived metric is computed
only when all its required inputs parse as numbers. -/
theorem wind_chill_computed_despite_unparseable_input :
    (computedWindChill (fun _ _ => 0) pC5).isSome ∧ getParse pC5 "windchillf" = none := by
  constructor
  · have ht : getParse pC5 "tempf" = some 40 := by
      rw [getParse, show pC5 "tempf" = some "40" from rfl, Option.some_bind, parse_40]
    have hv : getParse pC5 "windspeedmph" = some 10 := by
      rw [getParse, show pC5 "windspeedmph" = some "10" from rfl, Option.some_bind, parse_10]
    simp only [computedWindChill, ht, hv, show pC5 "windchillf" = some "abc" from rfl]
    rw [if_pos (by norm_num)]
    rfl
  · decide

/-- C5 (amended): the heat index is computed exactly when `tempf` and
`humidity` both parse as numbers; the wind-chill diagnostic is computed
only when `tempf` and `windspeedmph` parse as numbers and `windchillf` is
present (its text is used only as a logged comparison, not parsed); a
missing requirement silently skips the metric. -/
theorem derived_metric_input_requirements :
    (∀ (sqrt : ℚ → ℚ) (params : Params), publishHeatIndex sqrt params ≠ [] →
      (getParse params "tempf").isSome ∧ (getParse params "humidity").isSome) ∧
    (∀ (sqrt : ℚ → ℚ) (params : Params),
      getParse params "tempf" = none ∨ getParse params "humidity" = none →
      publishHeatIndex sqrt params = []) ∧
    (∀ (powf : ℚ → ℚ → ℚ) (params : Params), (computedWindChill powf params).isSome →
      (getParse params "tempf").isSome ∧ (getParse params "windspeedmph").isSome ∧
        (params "windchillf").isSome) ∧
    (∀ (powf : ℚ → ℚ → ℚ) (params : Params),
      getParse params "tempf" = none ∨ getParse params "windspeedmph" = none ∨
        params "windchillf" = none →
      computedWindChill powf params = none) := by
  refine ⟨?_, ?_, ?_, ?_⟩
  · intro sqrt params h
    rcases ht : getParse params "tempf" with _ | T
    · exact absurd (by simp [publishHeatIndex, ht]) h
    rcases hh : getParse params "humidity" with _ | RH
    · exact absurd (by simp [publishHeatIndex, ht, hh]) h
    exact ⟨by simp [ht], by simp [hh]⟩
  · intro sqrt params h
    rcases h with h | h
    · simp [publishHeatIndex, h]
    · rcases ht : getParse params "tempf" with _ | T
      · simp [publishHeatIndex, ht]
      · simp [publishHeatIndex, ht, h]
  · intro powf params h
    rcases ht : getParse params "tempf" with _ | T
    · simp [computedWindChill, ht] at h
    rcases hv : getParse params "windspeedmph" with _ | V
    · simp [computedWindChill, ht, hv] at h
    rcases hw : params "windchillf" with _ | w
    · simp [computedWindChill, ht, hv, hw] at h
    exact ⟨by simp [ht], by simp [hv], by simp [hw]⟩
  · intro powf params h
    rcases h with h | h | h
    · simp [computedWindChill, h]
    · rcases ht : getParse params "tempf" with _ | T
      · simp [computedWindChill, ht]
      · simp [computedWindChill, ht, h]
    · rcases ht : getParse params "tempf" with _ | T
      · simp [computedWindChill, ht]
      · rcases hv : getParse params "windspeedmph" with _ | V
        · simp [computedWindChill, ht, hv]
        · simp [computedWindChill, ht, hv, h]

/-- Request carrying only valid credentials and no sensor field at all. -/
def pC5w : Params := fun k =>
  if k = "ID" then some "local" else if k = "PASSWORD" then some "key" else none

theorem derived_metric_input_requirements_witness :
    publishHeatIndex id pC5w = [] ∧ computedWindChill (fun _ _ => 0) pC5w = none := by
  constructor
  · exact derived_metric_input_requirements.2.1 id pC5w (Or.inl (by decide))
  · exact derived_metric_input_requirements.2.2.2 (fun _ _ => 0) pC5w (Or.inl (by decide))

/-! ## C6: pressure conversion -/

/-- C6: each of the two pressure parameters that parses is published to its
own state topic with payload equal to the parsed value times 33.86,
formatted to one decimal place; raw `29.92` produces the payload
`1013.1`. -/
theorem pressure_conversion_published :
    (∀ (sqrt : ℚ → ℚ) (params : Params), validCreds params → ∀ q : ℚ,
      (getParse params "absbaromin" = some q →
        (⟨stateTopic "pressure", fmtDec (q * 33.86) 1, false⟩ : Sample)
          ∈ (handle_weather_update sqrt true params).2) ∧
      (getParse params "baromin" = some q →
        (⟨stateTopic "relativePressure", fmtDec (q * 33.86) 1, false⟩ : Sample)
          ∈ (handle_weather_update sqrt true params).2)) ∧
    (parseDecimal "29.92" = some 29.92 ∧ fmtDec ((29.92 : ℚ) * 33.86) 1 = "1013.1") := by
  constructor
  · intro sqrt params hc q
    constructor
    · intro hq
      rw [handle_samples_eq sqrt params hc]
      refine List.mem_append_left _ (List.mem_append_left _ (List.mem_append_right _ ?_))
      rw [publishPressure_parse hq]
      exact List.mem_singleton.mpr rfl
    · intro hq
      rw [handle_samples_eq sqrt params hc]
      refine List.mem_append_left _ (List.mem_append_right _ ?_)
      rw [publishPressure_parse hq]
      exact List.mem_singleton.mpr rfl
  · refine ⟨parse_2992, ?_⟩
    have h2 : roundHalfEven (|(29.92 : ℚ) * 33.86| * 10 ^ 1) = ((10131 : ℕ) : ℤ) := by
      rw [abs_of_nonneg (by norm_num)]
      rw [roundHalfEven_of_gt (f := ((10130 : ℕ) : ℤ))
        (by rw [Int.floor_eq_iff]; push_cast; norm_num)
        (by push_cast; norm_num)]
      norm_num
    rw [fmtDec_eq (decide_lt_zero_eq_false (by norm_num)) h2]
    decide

/-- Request with valid credentials and `absbaromin=29.92`. -/
def pC6 : Params := fun k =>
  if k = "ID" then some "local" else if k = "PASSWORD" then some "key"
  else if k = "absbaromin" then some "29.92" else none

theorem pressure_conversion_published_witness :
    (⟨stateTopic "pressure", "1013.1", false⟩ : Sample)
      ∈ (handle_weather_update id true pC6).2 := by
  have hq : getParse pC6 "absbaromin" = some 29.92 := by
    rw [getParse, show pC6 "absbaromin" = some "29.92" from rfl, Option.some_bind, parse_2992]
  have h := (pressure_conversion_published.1 id pC6 ⟨rfl, rfl⟩ 29.92).1 hq
  rwa [pressure_conversion_published.2.2] at h

/-! ## C7: the field table -/

/-- C7: every field of the table is parsed by its declared kind and, on
success, published non-retained to the state topic of its target name at
its configured precision; and every decimal payload has exactly the
configured number of digits after the point, for positive and negative
values alike. -/
theorem field_table_parse_publish :
    (∀ s ∈ fieldTable, ∀ (sqrt : ℚ → ℚ) (params : Params), validCreds params →
      (∀ (p : ℕ) (q : ℚ), s.valueKind = .decimal p → getParse params s.sourceKey = some q →
        (⟨stateTopic s.targetTopicSuffix, fmtDec q p, false⟩ : Sample)
          ∈ (handle_weather_update sqrt true params).2) ∧
      (∀ n : ℤ, s.valueKind = .integer → getParseInt params s.sourceKey = some n →
        (⟨stateTopic s.targetTopicSuffix, intToStr n, false⟩ : Sample)
          ∈ (handle_weather_update sqrt true params).2)) ∧
    (∀ (q : ℚ) (p : ℕ), 1 ≤ p → fracCount (fmtDec q p) = some p) := by
  refine ⟨?_, fracCount_fmtDec⟩
  intro s hs sqrt params hc
  constructor
  · intro p q hk hq
    apply runFieldSpec_subset hs sqrt params hc
    rw [runFieldSpec_decimal hk params hq]
    exact List.mem_singleton.mpr rfl
  · intro n hk hn
    apply runFieldSpec_subset hs sqrt params hc
    rw [runFieldSpec_integer hk params hn]
    exact List.mem_singleton.mpr rfl

/-- Request with valid credentials and `tempf=70`. -/
def pC7 : Params := fun k =>
  if k = "ID" then some "local" else if k = "PASSWORD" then some "key"
  else if k = "tempf" then some "70" else none

theorem field_table_parse_publish_witness :
    (⟨stateTopic "temperature", fmtDec (70 : ℚ) 1, false⟩ : Sample)
      ∈ (handle_weather_update id true pC7).2 ∧
    fracCount (fmtDec (-(1 / 4) : ℚ) 2) = some 2 := by
  constructor
  · refine (field_table_parse_publish.1 ⟨"tempf", "temperature", .decimal 1⟩ (by decide)
      id pC7 ⟨rfl, rfl⟩).1 1 70 rfl ?_
    rw [getParse, show pC7 "tempf" = some "70" from rfl, Option.some_bind, parse_70]
  · exact field_table_parse_publish.2 (-(1 / 4)) 2 (by norm_num)

/-! ## C8: integer payloads -/

theorem parseI32_range {s : String} {n : ℤ} (h : parseI32 s = some n) :
    -(2 ^ 31) ≤ n ∧ n < 2 ^ 31 := by
  simp only [parseI32] at h
  rcases hm : ((parseSign s.data).2).mapM charDigitVal with _ | ds
  · simp only [hm] at h
    exact absurd h (by simp)
  · simp only [hm] at h
    cases hneg : (parseSign s.data).1 with
    | false =>
      simp only [hneg, Bool.false_eq_true, if_false] at h
      split_ifs at h with h1 h2
      · obtain rfl := Option.some.inj h
        exact h2
    | true =>
      simp only [hneg, if_true] at h
      split_ifs at h with h1 h2
      · obtain rfl := Option.some.inj h
        exact h2

/-- C8: an integer field that parses is published with the parsed value's
decimal string as payload: the payload has no decimal point, and parsing
it back as an `i32` returns exactly the value parsed from the raw input. -/
theorem integer_payload_no_dot_roundtrip (params : Params) (s : SensorFieldSpec) (n : ℤ)
    (hk : s.valueKind = .integer) (hn : getParseInt params s.sourceKey = some n) :
    runFieldSpec params s = [⟨stateTopic s.targetTopicSuffix, intToStr n, false⟩] ∧
    fracCount (intToStr n) = none ∧ parseI32 (intToStr n) = some n := by
  refine ⟨runFieldSpec_integer hk params hn, fracCount_intToStr n, ?_⟩
  obtain ⟨val, hval, hp⟩ := Option.bind_eq_some.mp hn
  exact parseI32_intToStr (parseI32_range hp).1 (parseI32_range hp).2

/-- Request with valid credentials and `winddir=180`. -/
def pC8 : Params := fun k =>
  if k = "ID" then some "local" else if k = "PASSWORD" then some "key"
  else if k = "winddir" then some "180" else none

theorem integer_payload_no_dot_roundtrip_witness :
    runFieldSpec pC8 ⟨"winddir", "windDir", .integer⟩ =
      [⟨stateTopic "windDir", intToStr 180, false⟩] ∧
    fracCount (intToStr (180 : ℤ)) = none ∧ parseI32 (intToStr (180 : ℤ)) = some 180 :=
  integer_payload_no_dot_roundtrip pC8 ⟨"winddir", "windDir", .integer⟩ 180 rfl (by decide)

/-! ## C9: credentials are hardcoded, independent of the configuration -/

/-- Embedding of `AppConfig` (loaded from config.toml in `main`); its four
values configure only the MQTT broker connection. -/
structure AppConfig where
  broker_address : String
  client_id : String
  username : String
  password : String

/-- Acceptance decision of the system `main` assembles: the handler closure
captures only the MQTT client state, so the decision compares the query
parameters against the hardcoded literals and never reads `cfg`. -/
def requestAccepted (_cfg : AppConfig) (params : Params) : Bool :=
  !(params "ID" != some "local" || params "PASSWORD" != some "key")

/-- C9: a request is accepted exactly when `ID` equals the literal
`"local"` and `PASSWORD` equals the literal `"key"`; the decision is
identical under every configuration, and the handler's status is 400
precisely when it fails. -/
theorem credentials_hardcoded_config_independent :
    (∀ (cfg : AppConfig) (params : Params),
      requestAccepted cfg params = true ↔
        (params "ID" = some "local" ∧ params "PASSWORD" = some "key")) ∧
    (∀ (cfg cfg' : AppConfig) (params : Params),
      requestAccepted cfg params = requestAccepted cfg' params) ∧
    (∀ (cfg : AppConfig) (sqrt : ℚ → ℚ) (lockOk : Bool) (params : Params),
      (handle_weather_update sqrt lockOk params).1 ≠ 400 ↔
        requestAccepted cfg params = true) := by
  have hiff : ∀ (cfg : AppConfig) (params : Params),
      requestAccepted cfg params = true ↔
        (params "ID" = some "local" ∧ params "PASSWORD" = some "key") := by
    intro cfg params
    simp [requestAccepted]
  refine ⟨hiff, fun cfg cfg' params => rfl, ?_⟩
  intro cfg sqrt lockOk params
  rw [hiff]
  by_cases h : params "ID" ≠ some "local" ∨ params "PASSWORD" ≠ some "key"
  · rw [handle_weather_update, if_pos h]
    constructor
    · intro h400
      exact absurd rfl h400
    · intro hc
      rcases h with h' | h'
      · exact absurd hc.1 h'
      · exact absurd hc.2 h'
  · push_neg at h
    rw [handle_weather_update, if_neg (by push_neg; exact h)]
    cases lockOk with
    | false =>
      simp only [Bool.false_eq_true, if_false]
      exact iff_of_true (show (500 : ℕ) ≠ 400 by decide) h
    | true =>
      rw [if_pos rfl]
      exact iff_of_true (show (200 : ℕ) ≠ 400 by decide) h

/-! ## C10: unrecognized parameters never influence the outcome -/

/-- All query parameter keys the handler reads. -/
def recognizedKeys : List String :=
  ["ID", "PASSWORD", "tempf", "humidity", "dewptf", "windchillf", "winddir",
   "windspeedmph", "windgustmph", "rainin", "dailyrainin", "weeklyrainin",
   "monthlyrainin", "totalrainin", "solarradiation", "UV", "indoortempf",
   "indoorhumidity", "absbaromin", "baromin"]

/-- C10: two requests whose parameters agree on every recognized key get
the same status and exactly the same publishes, regardless of any other
query parameters they carry. -/
theorem unrecognized_params_no_influence (sqrt : ℚ → ℚ) (lockOk : Bool) (p₁ p₂ : Params)
    (h : ∀ k ∈ recognizedKeys, p₁ k = p₂ k) :
    handle_weather_update sqrt lockOk p₁ = handle_weather_update sqrt lockOk p₂ := by
  have h01 := h "ID" (by decide)
  have h02 := h "PASSWORD" (by decide)
  have h03 := h "tempf" (by decide)
  have h04 := h "humidity" (by decide)
  have h05 := h "dewptf" (by decide)
  have h06 := h "windchillf" (by decide)
  have h07 := h "winddir" (by decide)
  have h08 := h "windspeedmph" (by decide)
  have h09 := h "windgustmph" (by decide)
  have h10 := h "rainin" (by decide)
  have h11 := h "dailyrainin" (by decide)
  have h12 := h "weeklyrainin" (by decide)
  have h13 := h "monthlyrainin" (by decide)
  have h14 := h "totalrainin" (by decide)
  have h15 := h "solarradiation" (by decide)
  have h16 := h "UV" (by decide)
  have h17 := h "indoortempf" (by decide)
  have h18 := h "indoorhumidity" (by decide)
  have h19 := h "absbaromin" (by decide)
  have h20 := h "baromin" (by decide)
  simp only [handle_weather_update, publish_f32, publish_i32, publishPressure,
    publishHeatIndex, getParse, h01, h02, h03, h04, h05, h06, h07, h08, h09, h10,
    h11, h12, h13, h14, h15, h16, h17, h18, h19, h20]

/-- Request with valid credentials, `tempf=70` and an unrecognized extra
parameter. -/
def pC10a : Params := fun k =>
  if k = "ID" then some "local" else if k = "PASSWORD" then some "key"
  else if k = "tempf" then some "70" else if k = "EXTRA" then some "junk" else none

/-- The same request without the extra parameter. -/
def pC10b : Params := fun k =>
  if k = "ID" then some "local" else if k = "PASSWORD" then some "key"
  else if k = "tempf" then some "70" else none

theorem unrecognized_params_no_influence_witness :
    handle_weather_update id true pC10a = handle_weather_update id true pC10b :=
  unrecognized_params_no_influence id true pC10a pC10b (by decide)

end AmbientWeather
